import Mathlib

/-!
Verification development for the history-tracking core of
`simple_history/models.py` (django-simple-history).

The Python source is shallowly embedded: each relevant function of
`HistoricalRecords` becomes an executable Lean definition over explicit
state (instances, thread-local ambient request, lists of join rows).
Django model instances are records of attribute-name/value pairs; the
presence of a dynamic attribute such as `skip_history_when_saving` or
`_history_user` is modelled with `Bool`/`Option` fields, and an
`AttributeError` path in the source corresponds to a `none` case here.
-/

namespace SimpleHistory

/-- The four `history_type` tags of the historical model:
Created, Changed, Deleted, Drafted.  We keep them as `Char`,
exactly as the source stores them. -/
def createdTag : Char := '+'

def changedTag : Char := '~'

def deletedTag : Char := '-'

def draftedTag : Char := '#'

/-- Kind of a Django model field, as far as `copy_fields` /
`transform_field` dispatch on it via `isinstance`. -/
inductive FieldKind where
  | auto
  | integer
  | text
  | file
  | orderWrt
  | foreignKey
  | oneToOne
  | other
deriving DecidableEq, Repr

/-- Target of a foreign key: either the literal string token for a
self-reference (`rel.to == 'self'`) or a concrete model name. -/
inductive RelTo where
  | selfRef
  | model (name : String)
deriving DecidableEq, Repr

/-- `on_delete` policies that appear in the source. -/
inductive OnDelete where
  | cascade
  | setNull
  | doNothing
deriving DecidableEq, Repr

/-- A Django model field, restricted to the attributes the source reads
or writes (`name`, `attname`, constraint flags, FK metadata). -/
structure Field where
  name : String
  attname : String
  kind : FieldKind
  primaryKey : Bool
  unique : Bool
  dbIndex : Bool
  serialize : Bool
  autoNow : Bool
  autoNowAdd : Bool
  nullable : Bool
  blank : Bool
  dbConstraint : Bool
  toFields : List String
  dbColumn : Option String
  toField : Option String
  relTo : Option RelTo
  relatedName : Option String
  onDelete : OnDelete
deriving DecidableEq, Repr

/-- The slice of `model._meta` the source consults: identity of the
model, its declared fields and primary-key attribute, and whether the
`simple_history_manager_attribute` marker has already been installed. -/
structure ModelMeta where
  appLabel : String
  objectName : String
  modelName : String
  verboseName : String
  dbTable : String
  fields : List Field
  pkAttname : String
  managerAttribute : Option String
deriving DecidableEq, Repr

/-- An in-memory model instance: its meta, its attribute values
(attname-keyed), and the dynamic attributes the hooks probe with
`hasattr`/`getattr`:
`skip_history_when_saving` (presence only), `_history_date`,
`_history_user` (presence and value — the value may itself be `None`),
and `changeReason`. -/
structure Instance where
  meta : ModelMeta
  values : List (String × Nat)
  skip : Bool
  historyDateOverride : Option Nat
  historyUserOverride : Option (Option Nat)
  changeReason : Option String
deriving DecidableEq, Repr

/-- First-match association lookup (Python attribute/dict access). -/
def lookupKey {α β : Type} [DecidableEq α] (entries : List (α × β))
    (key : α) : Option β :=
  match entries with
  | [] => none
  | p :: rest => if p.1 = key then some p.2 else lookupKey rest key

/-- `getattr(instance, attname)` for snapshot construction; attribute
values are modelled as `Nat` and an absent attribute reads as `0`
(the claims only involve attributes that are present). -/
def getattrVal (inst : Instance) (attname : String) : Nat :=
  (lookupKey inst.values attname).getD 0

/-- The ambient user object possibly hanging off the thread-local
request.  `isAuthenticated = none` models an object lacking the
`is_authenticated` method (wrong shape → `AttributeError`). -/
structure AmbientUser where
  id : Nat
  isAuthenticated : Option Bool
deriving DecidableEq, Repr

/-- The thread-local request; `user = none` models a request object
without a `user` attribute. -/
structure Request where
  user : Option AmbientUser
deriving DecidableEq, Repr

/-- `HistoricalRecords.thread`: thread-local storage which may or may
not have a `request` bound. -/
structure Thread where
  request : Option Request
deriving DecidableEq, Repr

/-- `HistoricalRecords.get_history_user`: prefer the instance's
`_history_user` attribute; on `AttributeError` fall back to
`thread.request.user` if it is authenticated; any `AttributeError` in
that chain yields `None`. -/
def get_history_user (inst : Instance) (thread : Thread) : Option Nat :=
  match inst.historyUserOverride with
  | some u => u
  | none =>
    match thread.request with
    | none => none
    | some req =>
      match req.user with
      | none => none
      | some u =>
        match u.isAuthenticated with
        | none => none
        | some true => some u.id
        | some false => none

/-- `HistoricalRecords.fields_included`: the model's fields whose names
are not in the tracker's `excluded_fields` list. -/
def fields_included (excluded : List String) (meta : ModelMeta) : List Field :=
  meta.fields.filter (fun f => decide (f.name ∉ excluded))

/-- A persisted historical row, as built by
`create_historical_record` via `manager.create(...)`. -/
structure HistoricalRecord where
  history_date : Nat
  history_type : Char
  history_user : Option Nat
  history_change_reason : Option String
  values : List (String × Nat)
deriving DecidableEq, Repr

/-- `HistoricalRecords.create_historical_record`: snapshot the included
fields' current in-memory values, fill timestamp (instance override or
`now`), acting user and change reason, and create one row. -/
def create_historical_record (excluded : List String) (thread : Thread)
    (now : Nat) (inst : Instance) (historyType : Char) : HistoricalRecord :=
  { history_date := inst.historyDateOverride.getD now
    history_type := historyType
    history_user := get_history_user inst thread
    history_change_reason := inst.changeReason
    values :=
      (fields_included excluded inst.meta).map
        (fun f => (f.attname, getattrVal inst f.attname)) }

/-- `HistoricalRecords.post_save`: the list of historical rows one
post-save notification produces.  A non-created save of an instance
carrying `skip_history_when_saving` returns early; otherwise a row is
created unless the save was raw. -/
def post_save (excluded : List String) (thread : Thread) (now : Nat)
    (inst : Instance) (created : Bool) (raw : Bool) : List HistoricalRecord :=
  if !created && inst.skip then []
  else if !raw then
    [create_historical_record excluded thread now inst
      (if created then createdTag else changedTag)]
  else []

/-- `HistoricalRecords.post_delete`: the rows one post-delete
notification produces — always exactly one Deleted row. -/
def post_delete (excluded : List String) (thread : Thread) (now : Nat)
    (inst : Instance) : List HistoricalRecord :=
  [create_historical_record excluded thread now inst deletedTag]

/-- The m2m actions `m2m_changed` dispatches on. -/
inductive M2MAction where
  | postAdd
  | preRemove
  | preClear
  | otherAction
deriving DecidableEq, Repr

/-- A join row of the through model, as far as `m2m_changed` filters it:
its source-side and target-side foreign-key ids, plus the instance that
would be passed to `create_historical_record`. -/
structure JoinRow where
  sourceId : Nat
  targetId : Nat
  inst : Instance
deriving DecidableEq, Repr

/-- `m2m_changed`'s affected-row query:
`items = sender.objects.filter(source=instance)` followed by
`if kwargs['pk_set']: items = items.filter(target__id__in=pk_set)`.
Python truthiness makes `None` and the empty set behave alike. -/
def m2m_affected (rows : List JoinRow) (instanceId : Nat)
    (pkSet : Option (List Nat)) : List JoinRow :=
  let items := rows.filter (fun r => decide (r.sourceId = instanceId))
  match pkSet with
  | none => items
  | some ps =>
    if ps.isEmpty then items
    else items.filter (fun r => ps.contains r.targetId)

/-- The per-item loop of `m2m_changed`: on `post_add`, an item carrying
`skip_history_when_saving` makes the handler `return` (ending the whole
loop, not just skipping the item); otherwise one Created row per item.
On `pre_remove`/`pre_clear`, one Deleted row per item, unconditionally. -/
def m2m_emit (excluded : List String) (thread : Thread) (now : Nat)
    (action : M2MAction) (items : List JoinRow) : List HistoricalRecord :=
  match items with
  | [] => []
  | item :: rest =>
    match action with
    | .postAdd =>
      if item.inst.skip then []
      else create_historical_record excluded thread now item.inst createdTag ::
        m2m_emit excluded thread now .postAdd rest
    | .preRemove =>
      create_historical_record excluded thread now item.inst deletedTag ::
        m2m_emit excluded thread now .preRemove rest
    | .preClear =>
      create_historical_record excluded thread now item.inst deletedTag ::
        m2m_emit excluded thread now .preClear rest
    | .otherAction => m2m_emit excluded thread now .otherAction rest

/-- `HistoricalRecords.m2m_changed`, end to end: select the affected
join rows for the instance (restricted by `pk_set` when truthy), then
run the per-action emission loop over them. -/
def m2m_changed (excluded : List String) (thread : Thread) (now : Nat)
    (rows : List JoinRow) (instanceId : Nat) (pkSet : Option (List Nat))
    (action : M2MAction) : List HistoricalRecord :=
  m2m_emit excluded thread now action (m2m_affected rows instanceId pkSet)

/-- Outcome of one `finalize` call for a prepared sender class. -/
inductive FinalizeOutcome where
  | skipped
  | multipleRegistrations (message : String)
  | registered (managerName : String)
deriving DecidableEq, Repr

/-- The error message `finalize` raises on re-registration, built from
the sender's `app_label` and `object_name` exactly as in the source. -/
def multipleRegistrationsMessage (sender : ModelMeta) : String :=
  sender.appLabel ++ "." ++ sender.objectName ++
    " registered multiple times for history tracking."

/-- The registration core of `HistoricalRecords.finalize`, after the
pending-registration bookkeeping: return early when the prepared class
is neither the declaring class nor (with `inherit`) a subclass of it;
raise `MultipleRegistrationsError` when the sender's meta already
carries `simple_history_manager_attribute`; otherwise install the
history model and record the manager attribute.  This runs at
`class_prepared` time, before any instance save. -/
def finalize (hintMatches : Bool) (inheritApplies : Bool)
    (sender : ModelMeta) (managerName : String) : FinalizeOutcome :=
  if !hintMatches && !inheritApplies then .skipped
  else if sender.managerAttribute.isSome then
    .multipleRegistrations (multipleRegistrationsMessage sender)
  else .registered managerName

/-- `convert_auto_field`: an `AutoField` becomes a `TextField` on the
`django_mongodb_engine` backend, otherwise an `IntegerField`. -/
def convert_auto_field (engineIsMongo : Bool) : FieldKind :=
  if engineIsMongo then FieldKind.text else FieldKind.integer

/-- `transform_field`: rename to the storage attribute, demote
auto/file fields, strip `auto_now`/`auto_now_add`, and drop
primary/unique while keeping the field indexed and serializable. -/
def transform_field (engineIsMongo : Bool) (field : Field) : Field :=
  let field := { field with name := field.attname }
  let field :=
    if field.kind = FieldKind.auto then
      { field with kind := convert_auto_field engineIsMongo }
    else if field.kind = FieldKind.file then
      { field with kind := FieldKind.text }
    else field
  let field := { field with autoNow := false, autoNowAdd := false }
  if field.primaryKey || field.unique then
    { field with primaryKey := false, unique := false,
                 dbIndex := true, serialize := true }
  else field

/-- The per-field body of `HistoricalRecords.copy_fields`:
an `OrderWrt` proxy is first downgraded to a plain integer field; a
foreign key is rebuilt with `db_constraint=False`, nullable, blank,
non-primary, non-unique, indexed, serializable, `on_delete=DO_NOTHING`,
carrying over `to_field`/`db_column` overrides and re-pointing a
`'self'` reference at the concrete model; anything else goes through
`transform_field`. -/
def copy_field (meta : ModelMeta) (engineIsMongo : Bool)
    (field : Field) : Field :=
  let field :=
    if field.kind = FieldKind.orderWrt then
      { field with kind := FieldKind.integer }
    else field
  if field.kind = FieldKind.foreignKey ∨ field.kind = FieldKind.oneToOne then
    let objectTo : RelTo :=
      match field.relTo with
      | some RelTo.selfRef => RelTo.model meta.modelName
      | some t => t
      | none => RelTo.model meta.modelName
    { name := field.name
      attname := field.attname
      kind := FieldKind.foreignKey
      primaryKey := false
      unique := false
      dbIndex := true
      serialize := true
      autoNow := false
      autoNowAdd := false
      nullable := true
      blank := true
      dbConstraint := false
      toFields := []
      dbColumn :=
        match field.dbColumn with
        | some c => if c = "" then none else some c
        | none => none
      toField := field.toFields.head?
      relTo := some objectTo
      relatedName := some "+"
      onDelete := OnDelete.doNothing }
  else transform_field engineIsMongo field

/-- `HistoricalRecords.copy_fields`: project every included field. -/
def copy_fields (excluded : List String) (engineIsMongo : Bool)
    (meta : ModelMeta) : List Field :=
  (fields_included excluded meta).map (copy_field meta engineIsMongo)

/-- `model._meta.get_field(name)`: look a field up by name. -/
def get_field (meta : ModelMeta) (name : String) : Option Field :=
  meta.fields.find? (fun f => f.name = name)

/-- A live database table for the tracked model: primary-key value to
the stored attribute values of that row. -/
def LiveTable := List (Nat × List (String × Nat))

/-- The stored attribute values of a historical row, read with
`getattr(self, field.attname)`. -/
def getattrRecord (hr : HistoricalRecord) (attname : String) : Nat :=
  (lookupKey hr.values attname).getD 0

/-- Update an attribute map (`attrs.update(values)` for one key):
replace the value bound to `key` when present, append it otherwise —
exactly the semantics of a Python `dict` update. -/
def updateAttr (attrs : List (String × Nat)) (key : String) (v : Nat) :
    List (String × Nat) :=
  if attrs.any (fun p => p.1 = key) then
    attrs.map (fun p => if p.1 = key then (p.1, v) else p)
  else attrs ++ [(key, v)]

/-- The `get_instance` accessor installed as the `instance` property on
the historical model: rebuild the original model's attributes from the
snapshot (one entry per copied field), and when the tracker has
excluded fields, fetch their current values live by primary key —
`model.objects.filter(pk=...).values(...).get()` raises `DoesNotExist`
when the live row is gone, and that error propagates. -/
def get_instance (excluded : List String) (engineIsMongo : Bool)
    (meta : ModelMeta) (live : LiveTable) (hr : HistoricalRecord) :
    Except String (List (String × Nat)) :=
  let attrs :=
    (copy_fields excluded engineIsMongo meta).map
      (fun f => (f.attname, getattrRecord hr f.attname))
  if excluded.isEmpty then Except.ok attrs
  else
    match lookupKey live (getattrRecord hr meta.pkAttname) with
    | none => Except.error "DoesNotExist"
    | some liveValues =>
      let excludedAttnames :=
        excluded.filterMap (fun n => (get_field meta n).map (fun f => f.attname))
      Except.ok (excludedAttnames.foldl
        (fun acc att => updateAttr acc att ((lookupKey liveValues att).getD 0))
        attrs)

/-- The Meta options `get_meta_options` installs on the historical
model. -/
structure MetaOptions where
  ordering : List String
  getLatestBy : String
  verboseName : String
deriving DecidableEq, Repr

/-- `HistoricalRecords.get_meta_options`: reverse-chronological
ordering keys, `get_latest_by`, and the verbose name (caller-supplied
or prefixed with "historical "). -/
def get_meta_options (userSetVerboseName : Option String)
    (meta : ModelMeta) : MetaOptions :=
  { ordering := ["-history_date", "-history_id"]
    getLatestBy := "history_date"
    verboseName :=
      match userSetVerboseName with
      | some n => n
      | none => "historical " ++ meta.verboseName }

/-- A stored historical row as the ordering sees it: its bookkeeping
key columns plus the change tag (so two rows may agree on the keys
the ordering does not use). -/
structure HistRow where
  history_date : Nat
  history_id : Nat
  history_type : Char
deriving DecidableEq, Repr

/-- The value of one ordering column on a row (column name given as a
character list). -/
def keyVal (r : HistRow) (key : List Char) : Nat :=
  if key = "history_date".toList then r.history_date
  else if key = "history_id".toList then r.history_id
  else 0

/-- Three-way comparison on the ordering-column values. -/
def natCmp (a b : Nat) : Ordering :=
  if a < b then Ordering.lt else if a = b then Ordering.eq else Ordering.gt

/-- Django ordering semantics of one key string: a leading '-' means
the named column is compared descending, otherwise ascending. -/
def keyCmp (key : String) (r s : HistRow) : Ordering :=
  match key.toList with
  | '-' :: rest => natCmp (keyVal s rest) (keyVal r rest)
  | rest => natCmp (keyVal r rest) (keyVal s rest)

/-- Lexicographic combination of a list of ordering keys. -/
def orderingCmp (keys : List String) (r s : HistRow) : Ordering :=
  match keys with
  | [] => Ordering.eq
  | k :: ks =>
    match keyCmp k r s with
    | Ordering.eq => orderingCmp ks r s
    | o => o

/-- `r` sorts strictly before `s` under the historical model's Meta
ordering. -/
def histOrderLt (m : MetaOptions) (r s : HistRow) : Prop :=
  orderingCmp m.ordering r s = Ordering.lt

instance (m : MetaOptions) (r s : HistRow) : Decidable (histOrderLt m r s) := by
  unfold histOrderLt
  infer_instance

/-! Concrete fixtures used by witnesses and counterexamples. -/

/-- A plain (integer) field named `n`, with Django's defaults. -/
def plainField (n : String) : Field :=
  { name := n
    attname := n
    kind := FieldKind.integer
    primaryKey := false
    unique := false
    dbIndex := false
    serialize := true
    autoNow := false
    autoNowAdd := false
    nullable := false
    blank := false
    dbConstraint := true
    toFields := []
    dbColumn := none
    toField := none
    relTo := none
    relatedName := none
    onDelete := OnDelete.cascade }

/-- The auto primary-key field of the sample model. -/
def pkField : Field :=
  { plainField "id" with kind := FieldKind.auto, primaryKey := true }

/-- A sample tracked model: `library.Book` with fields
`id`, `title`, `secret`. -/
def sampleMeta : ModelMeta :=
  { appLabel := "library"
    objectName := "Book"
    modelName := "book"
    verboseName := "book"
    dbTable := "library_book"
    fields := [pkField, plainField "title", plainField "secret"]
    pkAttname := "id"
    managerAttribute := none }

/-- The same model after a first registration installed the manager
attribute. -/
def trackedMeta : ModelMeta :=
  { sampleMeta with managerAttribute := some "history" }

/-- A sample instance of `sampleMeta` with no dynamic attributes. -/
def sampleInstance : Instance :=
  { meta := sampleMeta
    values := [("id", 1), ("title", 7), ("secret", 42)]
    skip := false
    historyDateOverride := none
    historyUserOverride := none
    changeReason := none }

/-- The sample instance carrying `skip_history_when_saving`. -/
def skipInstance : Instance :=
  { sampleInstance with skip := true }

/-- The sample instance carrying `_history_user = user 5`. -/
def overrideInstance : Instance :=
  { sampleInstance with historyUserOverride := some (some 5) }

/-- The sample instance carrying `_history_user = None`. -/
def nullOverrideInstance : Instance :=
  { sampleInstance with historyUserOverride := some none }

/-- Thread-local storage with no request bound. -/
def emptyThread : Thread :=
  { request := none }

/-- Thread-local storage with an authenticated user 9 on the request. -/
def authThread : Thread :=
  { request := some { user := some { id := 9, isAuthenticated := some true } } }

/-- A join row whose instance carries the skip-flag. -/
def joinSkipRow : JoinRow :=
  { sourceId := 1, targetId := 2, inst := skipInstance }

/-- A join row whose instance does not carry the skip-flag. -/
def joinPlainRow : JoinRow :=
  { sourceId := 1, targetId := 3, inst := sampleInstance }

/-- A self-referencing foreign-key field with `to_field` and
`db_column` overrides. -/
def authorField : Field :=
  { plainField "author" with
      attname := "author_id"
      kind := FieldKind.foreignKey
      relTo := some RelTo.selfRef
      toFields := ["code"]
      dbColumn := some "author_col" }

/-- A historical row captured for `sampleInstance` with the `secret`
field excluded. -/
def hrSample : HistoricalRecord :=
  create_historical_record ["secret"] emptyThread 0 sampleInstance
    createdTag

/-- The current live values of the sample row (the `secret` field has
since changed to 99). -/
def sampleLiveValues : List (String × Nat) :=
  [("id", 1), ("title", 7), ("secret", 99)]

/-- A live table holding the sample row under its primary key. -/
def sampleLive : LiveTable :=
  [(1, sampleLiveValues)]

end SimpleHistory

namespace SimpleHistory

/-- **C5.** Acting-user resolution prefers the `_history_user` override
attribute on the instance; with no override it uses the thread-local
request's user exactly when one is bound, has the expected shape, and
is authenticated; every absent or ill-shaped link in that chain — no
request, a request without a user, a user without `is_authenticated`,
or an unauthenticated user — resolves locally to `none`
(`get_history_user` is total: no error escapes). -/
theorem get_history_user_resolution (inst : Instance) (thread : Thread) :
    (∀ u, inst.historyUserOverride = some u →
      get_history_user inst thread = u) ∧
    (inst.historyUserOverride = none →
      ∀ req au, thread.request = some req → req.user = some au →
        au.isAuthenticated = some true →
        get_history_user inst thread = some au.id) ∧
    (inst.historyUserOverride = none →
      (thread.request = none ∨
        (∃ req, thread.request = some req ∧ req.user = none) ∨
        (∃ req au, thread.request = some req ∧ req.user = some au ∧
          au.isAuthenticated = none) ∨
        (∃ req au, thread.request = some req ∧ req.user = some au ∧
          au.isAuthenticated = some false)) →
      get_history_user inst thread = none) := by
  refine ⟨?_, ?_, ?_⟩
  · intro u hu
    simp [get_history_user, hu]
  · intro hov req au hreq huser hauth
    simp [get_history_user, hov, hreq, huser, hauth]
  · intro hov hcase
    rcases hcase with h | ⟨req, hreq, huser⟩ |
      ⟨req, au, hreq, huser, hauth⟩ | ⟨req, au, hreq, huser, hauth⟩ <;>
      simp [get_history_user, hov, *]

/-- Witness for `get_history_user_resolution`: an override wins, an
authenticated ambient user is used, and an unbound context yields
`none`. -/
theorem get_history_user_resolution_witness :
    get_history_user overrideInstance emptyThread = some 5 ∧
    get_history_user sampleInstance authThread = some 9 ∧
    get_history_user sampleInstance emptyThread = none := by
  refine ⟨?_, ?_, ?_⟩
  · exact (get_history_user_resolution overrideInstance emptyThread).1 (some 5) rfl
  · exact (get_history_user_resolution sampleInstance authThread).2.1 rfl
      { user := some { id := 9, isAuthenticated := some true } }
      { id := 9, isAuthenticated := some true } rfl rfl rfl
  · exact (get_history_user_resolution sampleInstance emptyThread).2.2 rfl
      (Or.inl rfl)

/-- **C10.** When the `_history_user` override attribute is present but
bound to `None`, the captured acting user is `none` for every ambient
context, authenticated or not: the thread-local request is consulted
only on `AttributeError`, i.e. when the attribute is absent entirely. -/
theorem get_history_user_null_override (inst : Instance) (thread : Thread)
    (hov : inst.historyUserOverride = some none) :
    get_history_user inst thread = none := by
  simp [get_history_user, hov]

/-- Witness for `get_history_user_null_override`: the override is
`None` while an authenticated user 9 is bound, and resolution still
yields `none`. -/
theorem get_history_user_null_override_witness :
    get_history_user nullOverrideInstance authThread = none :=
  get_history_user_null_override nullOverrideInstance authThread rfl

/-- **C4.** A post-delete notification emits exactly one history row,
tagged Deleted, whose snapshot is the instance's in-memory included
field values as they stood before removal; the emission is
unconditional — flipping `skip_history_when_saving` changes nothing. -/
theorem post_delete_one_deleted_row (excluded : List String)
    (thread : Thread) (now : Nat) (inst : Instance) :
    (∃ r, post_delete excluded thread now inst = [r] ∧
      r.history_type = deletedTag ∧
      r.values = (fields_included excluded inst.meta).map
        (fun f => (f.attname, getattrVal inst f.attname))) ∧
    post_delete excluded thread now { inst with skip := true } =
      post_delete excluded thread now { inst with skip := false } :=
  ⟨⟨create_historical_record excluded thread now inst deletedTag,
    rfl, rfl, rfl⟩, rfl⟩

/-- **C3.** When `finalize` runs for a sender whose meta already
carries the `simple_history_manager_attribute` marker (i.e. a second
registration of an already-tracked type) and the declaring-class guard
passes, it raises `MultipleRegistrationsError` whose message names the
sender's app label and object name.  This happens at `class_prepared`
time, independent of any instance save. -/
theorem finalize_rejects_second_registration (inheritApplies : Bool)
    (sender : ModelMeta) (managerName attr : String)
    (hattr : sender.managerAttribute = some attr) :
    finalize true inheritApplies sender managerName =
      FinalizeOutcome.multipleRegistrations
        (sender.appLabel ++ "." ++ sender.objectName ++
          " registered multiple times for history tracking.") := by
  simp [finalize, multipleRegistrationsMessage, hattr]

/-- Witness for `finalize_rejects_second_registration` on the
already-tracked sample model. -/
theorem finalize_rejects_second_registration_witness :
    finalize true false trackedMeta "history" =
      FinalizeOutcome.multipleRegistrations
        (trackedMeta.appLabel ++ "." ++ trackedMeta.objectName ++
          " registered multiple times for history tracking.") :=
  finalize_rejects_second_registration false trackedMeta "history" "history" rfl

/-- Counterexample to **C1** as stated: a *raw* create (fixture load)
of an instance carrying the skip-flag produces zero history rows, not
the one Created row the claim requires for every create. -/
theorem post_save_skip_create_raw_zero_rows :
    skipInstance.skip = true ∧
    post_save [] emptyThread 0 skipInstance true true = [] :=
  ⟨rfl, rfl⟩

/-- **C1 (amended).** For every *non-raw* save of an instance carrying
the skip-flag: an update produces zero rows, and a create still
produces exactly one row tagged Created; a raw save produces no row
regardless. -/
theorem post_save_skip_flag_behavior (excluded : List String)
    (thread : Thread) (now : Nat) (inst : Instance) (created raw : Bool)
    (hskip : inst.skip = true) :
    (created = false → post_save excluded thread now inst created raw = []) ∧
    (created = true → raw = false →
      ∃ r, post_save excluded thread now inst created raw = [r] ∧
        r.history_type = createdTag) := by
  constructor
  · intro hc
    subst hc
    simp [post_save, hskip]
  · intro hc hr
    subst hc
    subst hr
    exact ⟨create_historical_record excluded thread now inst createdTag,
      by simp [post_save], rfl⟩

/-- Witness for `post_save_skip_flag_behavior`: with the skip-flag set,
a non-raw update emits nothing while a non-raw create emits one Created
row. -/
theorem post_save_skip_flag_behavior_witness :
    post_save [] emptyThread 0 skipInstance false false = [] ∧
    ∃ r, post_save [] emptyThread 0 skipInstance true false = [r] ∧
      r.history_type = createdTag :=
  ⟨(post_save_skip_flag_behavior [] emptyThread 0 skipInstance false false
      rfl).1 rfl,
   (post_save_skip_flag_behavior [] emptyThread 0 skipInstance true false
      rfl).2 rfl rfl⟩

/-- The `post_add` loop of `m2m_changed` emits Created rows only up to
(and excluding) the first item carrying the skip-flag, because the
skip branch executes `return`, not `continue`. -/
theorem m2m_emit_postAdd_eq (excluded : List String) (thread : Thread)
    (now : Nat) (items : List JoinRow) :
    m2m_emit excluded thread now M2MAction.postAdd items =
      (items.takeWhile (fun i => !i.inst.skip)).map
        (fun i => create_historical_record excluded thread now i.inst
          createdTag) := by
  induction items with
  | nil => rfl
  | cons item rest ih =>
    by_cases h : item.inst.skip
    · simp [m2m_emit, h, List.takeWhile_cons]
    · simp [m2m_emit, h, List.takeWhile_cons, ih]

/-- Counterexample to **C2** as stated: in an add event affecting two
join rows where the first one's owner carries the skip-flag, the
handler returns from inside the loop and emits nothing — the second,
unflagged affected row is not recorded, though the claim says it must
be. -/
theorem m2m_post_add_abandons_later_rows :
    joinPlainRow.inst.skip = false ∧
    m2m_changed [] emptyThread 0 [joinSkipRow, joinPlainRow] 1 none
      M2MAction.postAdd = [] :=
  ⟨rfl, rfl⟩

/-- **C2 (amended).** A many-to-many add event emits one Created row
per affected join row *in order up to the first row whose owner carries
the skip-flag*, at which point the handler stops (that row and all
later affected rows are unrecorded); in particular when no affected
row carries the flag, exactly one Created row is emitted per affected
row. -/
theorem m2m_post_add_rows (excluded : List String) (thread : Thread)
    (now : Nat) (rows : List JoinRow) (instanceId : Nat)
    (pkSet : Option (List Nat)) :
    m2m_changed excluded thread now rows instanceId pkSet
        M2MAction.postAdd =
      ((m2m_affected rows instanceId pkSet).takeWhile
          (fun i => !i.inst.skip)).map
        (fun i => create_historical_record excluded thread now i.inst
          createdTag) ∧
    ((∀ i ∈ m2m_affected rows instanceId pkSet, i.inst.skip = false) →
      (m2m_changed excluded thread now rows instanceId pkSet
          M2MAction.postAdd).length =
        (m2m_affected rows instanceId pkSet).length ∧
      ∀ r ∈ m2m_changed excluded thread now rows instanceId pkSet
          M2MAction.postAdd, r.history_type = createdTag) := by
  have hemit := m2m_emit_postAdd_eq excluded thread now
    (m2m_affected rows instanceId pkSet)
  refine ⟨hemit, fun hall => ?_⟩
  have htw : (m2m_affected rows instanceId pkSet).takeWhile
      (fun i => !i.inst.skip) = m2m_affected rows instanceId pkSet := by
    rw [List.takeWhile_eq_self_iff]
    intro a ha
    simp [hall a ha]
  constructor
  · rw [show m2m_changed excluded thread now rows instanceId pkSet
        M2MAction.postAdd = _ from hemit, htw, List.length_map]
  · intro r hr
    rw [show m2m_changed excluded thread now rows instanceId pkSet
        M2MAction.postAdd = _ from hemit] at hr
    obtain ⟨i, _, hi⟩ := List.mem_map.mp hr
    rw [← hi]
    rfl

/-- Witness for `m2m_post_add_rows`: one affected, unflagged join row
yields exactly one emitted row. -/
theorem m2m_post_add_rows_witness :
    (m2m_changed [] emptyThread 0 [joinPlainRow] 1 none
        M2MAction.postAdd).length =
      (m2m_affected [joinPlainRow] 1 none).length :=
  ((m2m_post_add_rows [] emptyThread 0 [joinPlainRow] 1 none).2
    (by decide)).1

/-- Counterexample to **C8** as stated: a supplied-but-empty key set is
falsy in Python, so the affected-row lookup is *not* restricted to it —
a join row whose target key is not in the (empty) supplied set is still
affected, where the claim requires zero affected rows. -/
theorem m2m_affected_empty_pkset_not_restricted :
    m2m_affected [joinPlainRow] 1 (some []) = [joinPlainRow] ∧
    [joinPlainRow].filter (fun r => ([] : List Nat).contains r.targetId)
      = [] :=
  ⟨rfl, rfl⟩

/-- **C8 (amended).** If a *non-empty* set of target keys accompanies
the event, the affected rows are exactly the instance's matching join
rows whose target key lies in the set; if no set — or an empty set — is
supplied, all currently matching join rows for the instance are
affected. -/
theorem m2m_affected_pkset_restriction (rows : List JoinRow)
    (instanceId : Nat) (pkSet : Option (List Nat)) :
    (∀ ps, pkSet = some ps → ps ≠ [] →
      m2m_affected rows instanceId pkSet =
        (rows.filter (fun r => decide (r.sourceId = instanceId))).filter
          (fun r => ps.contains r.targetId)) ∧
    (pkSet = none ∨ pkSet = some [] →
      m2m_affected rows instanceId pkSet =
        rows.filter (fun r => decide (r.sourceId = instanceId))) := by
  constructor
  · intro ps hps hne
    subst hps
    simp [m2m_affected, List.isEmpty_iff, hne]
  · intro h
    rcases h with h | h <;> subst h <;> simp [m2m_affected]

/-- Witness for `m2m_affected_pkset_restriction`: a non-empty key set
`{3}` restricts the affected rows to the join row for target 3. -/
theorem m2m_affected_pkset_restriction_witness :
    m2m_affected [joinSkipRow, joinPlainRow] 1 (some [3]) =
      ([joinSkipRow, joinPlainRow].filter
          (fun r => decide (r.sourceId = 1))).filter
        (fun r => [3].contains r.targetId) :=
  (m2m_affected_pkset_restriction [joinSkipRow, joinPlainRow] 1
    (some [3])).1 [3] rfl (by decide)

/-- **C9.** Projecting a foreign-key (or one-to-one) field for the
historical model disables the database-level constraint, keeps the
`to_field` and `db_column` overrides, makes the copy nullable, blank,
non-primary, non-unique, indexed and serializable with
`on_delete=DO_NOTHING`, keeps the field's name, and re-points a
`'self'` reference at the concrete containing model. -/
theorem copy_field_foreign_key_projection (meta : ModelMeta)
    (engineIsMongo : Bool) (field : Field)
    (hfk : field.kind = FieldKind.foreignKey ∨
      field.kind = FieldKind.oneToOne) :
    (copy_field meta engineIsMongo field).dbConstraint = false ∧
    (copy_field meta engineIsMongo field).nullable = true ∧
    (copy_field meta engineIsMongo field).blank = true ∧
    (copy_field meta engineIsMongo field).primaryKey = false ∧
    (copy_field meta engineIsMongo field).unique = false ∧
    (copy_field meta engineIsMongo field).dbIndex = true ∧
    (copy_field meta engineIsMongo field).serialize = true ∧
    (copy_field meta engineIsMongo field).toField =
      field.toFields.head? ∧
    (∀ c, field.dbColumn = some c → c ≠ "" →
      (copy_field meta engineIsMongo field).dbColumn = some c) ∧
    (field.relTo = some RelTo.selfRef →
      (copy_field meta engineIsMongo field).relTo =
        some (RelTo.model meta.modelName)) ∧
    (∀ nm, field.relTo = some (RelTo.model nm) →
      (copy_field meta engineIsMongo field).relTo =
        some (RelTo.model nm)) ∧
    (copy_field meta engineIsMongo field).onDelete =
      OnDelete.doNothing ∧
    (copy_field meta engineIsMongo field).name = field.name := by
  have hres : copy_field meta engineIsMongo field =
      { name := field.name
        attname := field.attname
        kind := FieldKind.foreignKey
        primaryKey := false
        unique := false
        dbIndex := true
        serialize := true
        autoNow := false
        autoNowAdd := false
        nullable := true
        blank := true
        dbConstraint := false
        toFields := []
        dbColumn :=
          match field.dbColumn with
          | some c => if c = "" then none else some c
          | none => none
        toField := field.toFields.head?
        relTo := some
          (match field.relTo with
            | some RelTo.selfRef => RelTo.model meta.modelName
            | some t => t
            | none => RelTo.model meta.modelName)
        relatedName := some "+"
        onDelete := OnDelete.doNothing } := by
    rcases hfk with h | h <;> simp [copy_field, h]
  rw [hres]
  refine ⟨rfl, rfl, rfl, rfl, rfl, rfl, rfl, rfl, ?_, ?_, ?_, rfl, rfl⟩
  · intro c hc hne
    simp [hc, hne]
  · intro hself
    simp [hself]
  · intro nm hnm
    simp [hnm]

/-- Witness for `copy_field_foreign_key_projection` on a concrete
self-referencing foreign key with overrides. -/
theorem copy_field_foreign_key_projection_witness :
    (copy_field sampleMeta false authorField).dbConstraint = false ∧
    (copy_field sampleMeta false authorField).dbColumn =
      some "author_col" ∧
    (copy_field sampleMeta false authorField).relTo =
      some (RelTo.model sampleMeta.modelName) := by
  obtain ⟨h1, _, _, _, _, _, _, _, hcol, hself, _, _, _⟩ :=
    copy_field_foreign_key_projection sampleMeta false authorField
      (Or.inl rfl)
  exact ⟨h1, hcol "author_col" rfl (by decide), hself rfl⟩

/-- `natCmp` returns `lt` exactly on strictly smaller inputs. -/
theorem natCmp_eq_lt {a b : Nat} : natCmp a b = Ordering.lt ↔ a < b := by
  unfold natCmp
  split_ifs with h h'
  · simpa using h
  · simp
    omega
  · simp
    omega

/-- `natCmp` returns `eq` exactly on equal inputs. -/
theorem natCmp_eq_eq {a b : Nat} : natCmp a b = Ordering.eq ↔ a = b := by
  unfold natCmp
  split_ifs with h h'
  · simp
    omega
  · simpa using h'
  · simp
    omega

/-- `natCmp` returns `gt` exactly on strictly larger inputs. -/
theorem natCmp_eq_gt {a b : Nat} : natCmp a b = Ordering.gt ↔ b < a := by
  unfold natCmp
  split_ifs with h h'
  · simp
    omega
  · simp
    omega
  · simp
    omega

/-- Unfolding the lexicographic comparison for the concrete key list
`["-history_date", "-history_id"]`. -/
theorem orderingCmp_pair (r s : HistRow) :
    orderingCmp ["-history_date", "-history_id"] r s =
      (match natCmp s.history_date r.history_date with
        | Ordering.eq =>
          (match natCmp s.history_id r.history_id with
            | Ordering.eq => Ordering.eq
            | o => o)
        | o => o) := rfl

/-- The historical Meta ordering sorts `r` strictly before `s` exactly
when `r` is later (larger `history_date`), or contemporaneous with the
larger `history_id`. -/
theorem histOrderLt_iff (v : Option String) (meta : ModelMeta)
    (r s : HistRow) :
    histOrderLt (get_meta_options v meta) r s ↔
      s.history_date < r.history_date ∨
        (s.history_date = r.history_date ∧
          s.history_id < r.history_id) := by
  show orderingCmp ["-history_date", "-history_id"] r s = Ordering.lt ↔ _
  rw [orderingCmp_pair]
  rcases Nat.lt_trichotomy s.history_date r.history_date with hd | hd | hd
  · rw [show natCmp s.history_date r.history_date = Ordering.lt from
      natCmp_eq_lt.mpr hd]
    simp
    omega
  · rw [show natCmp s.history_date r.history_date = Ordering.eq from
      natCmp_eq_eq.mpr hd]
    rcases Nat.lt_trichotomy s.history_id r.history_id with hi | hi | hi
    · rw [show natCmp s.history_id r.history_id = Ordering.lt from
        natCmp_eq_lt.mpr hi]
      simp
      omega
    · rw [show natCmp s.history_id r.history_id = Ordering.eq from
        natCmp_eq_eq.mpr hi]
      simp
      omega
    · rw [show natCmp s.history_id r.history_id = Ordering.gt from
        natCmp_eq_gt.mpr hi]
      simp
      omega
  · rw [show natCmp s.history_date r.history_date = Ordering.gt from
      natCmp_eq_gt.mpr hd]
    simp
    omega

/-- **C7.** The historical model's Meta ordering is the pair
`(-history_date, -history_id)`, and the induced strict order on
history rows is irreflexive, transitive, and — because `history_id` is
a unique synthetic key — total and asymmetric on distinct rows, even
when two rows share the same timestamp; it is exactly the
reverse-chronological order tie-broken by descending record id. -/
theorem history_meta_ordering_total (v : Option String)
    (meta : ModelMeta) :
    (get_meta_options v meta).ordering =
      ["-history_date", "-history_id"] ∧
    (∀ r, ¬ histOrderLt (get_meta_options v meta) r r) ∧
    (∀ r s t, histOrderLt (get_meta_options v meta) r s →
      histOrderLt (get_meta_options v meta) s t →
      histOrderLt (get_meta_options v meta) r t) ∧
    (∀ r s : HistRow, r.history_id ≠ s.history_id →
      (histOrderLt (get_meta_options v meta) r s ∨
        histOrderLt (get_meta_options v meta) s r) ∧
      ¬ (histOrderLt (get_meta_options v meta) r s ∧
        histOrderLt (get_meta_options v meta) s r)) ∧
    (∀ r s : HistRow,
      histOrderLt (get_meta_options v meta) r s ↔
        s.history_date < r.history_date ∨
          (s.history_date = r.history_date ∧
            s.history_id < r.history_id)) := by
  refine ⟨rfl, ?_, ?_, ?_, fun r s => histOrderLt_iff v meta r s⟩
  · intro r
    rw [histOrderLt_iff v meta r r]
    omega
  · intro r s t h1 h2
    rw [histOrderLt_iff v meta r s] at h1
    rw [histOrderLt_iff v meta s t] at h2
    rw [histOrderLt_iff v meta r t]
    omega
  · intro r s hne
    constructor
    · rw [histOrderLt_iff v meta r s, histOrderLt_iff v meta s r]
      omega
    · rw [histOrderLt_iff v meta r s, histOrderLt_iff v meta s r]
      omega

/-- Witness for `history_meta_ordering_total`: two rows with the same
timestamp but distinct record ids are strictly comparable. -/
theorem history_meta_ordering_total_witness :
    histOrderLt (get_meta_options none sampleMeta)
        ⟨5, 2, '~'⟩ ⟨5, 1, '+'⟩ ∨
    histOrderLt (get_meta_options none sampleMeta)
        ⟨5, 1, '+'⟩ ⟨5, 2, '~'⟩ :=
  (((history_meta_ordering_total none sampleMeta).2.2.2.1
    ⟨5, 2, '~'⟩ ⟨5, 1, '+'⟩ (by decide)).1)

/-- Looking a key up after an in-place map update finds the new value
exactly when the key was present. -/
theorem lookupKey_map_update {key : String} {v : Nat}
    (attrs : List (String × Nat)) :
    lookupKey (attrs.map (fun p => if p.1 = key then (p.1, v) else p)) key =
      if attrs.any (fun p => p.1 = key) then some v else none := by
  induction attrs with
  | nil => rfl
  | cons p rest ih =>
    by_cases h : p.1 = key
    · simp [lookupKey, h]
    · simp [lookupKey, h, ih]
      rw [decide_eq_false h, Bool.false_or]

/-- A key absent from every pair looks up to `none`. -/
theorem lookupKey_eq_none_of_not_any (attrs : List (String × Nat))
    (key : String) (h : attrs.any (fun p => p.1 = key) = false) :
    lookupKey attrs key = none := by
  induction attrs with
  | nil => rfl
  | cons p rest ih =>
    simp only [List.any_cons, Bool.or_eq_false_iff, decide_eq_false_iff_not]
      at h
    simp [lookupKey, h.1, ih h.2]

/-- Appending a fresh binding makes an absent key look up to it. -/
theorem lookupKey_append_single {α β : Type} [DecidableEq α]
    (attrs : List (α × β)) (key : α) (v : β)
    (h : lookupKey attrs key = none) :
    lookupKey (attrs ++ [(key, v)]) key = some v := by
  induction attrs with
  | nil => simp [lookupKey]
  | cons p rest ih =>
    by_cases hp : p.1 = key
    · simp [lookupKey, hp] at h
    · simp only [List.cons_append, lookupKey, hp, if_false] at h ⊢
      exact ih h

/-- `dict.update` semantics: after `updateAttr attrs key v`, the key
looks up to `v`. -/
theorem lookupKey_updateAttr_self (attrs : List (String × Nat))
    (key : String) (v : Nat) :
    lookupKey (updateAttr attrs key v) key = some v := by
  unfold updateAttr
  by_cases h : attrs.any (fun p => p.1 = key) = true
  · rw [if_pos h, lookupKey_map_update, if_pos h]
  · have h' : attrs.any (fun p => p.1 = key) = false := by
      revert h
      cases attrs.any (fun p => p.1 = key) <;> simp
    rw [if_neg h]
    exact lookupKey_append_single attrs key v
      (lookupKey_eq_none_of_not_any attrs key h')

/-- An in-place map update leaves other keys' lookups unchanged. -/
theorem lookupKey_map_update_other (attrs : List (String × Nat))
    (key key' : String) (v : Nat) (hne : key' ≠ key) :
    lookupKey (attrs.map (fun p => if p.1 = key then (p.1, v) else p))
        key' =
      lookupKey attrs key' := by
  induction attrs with
  | nil => rfl
  | cons p rest ih =>
    by_cases hp : p.1 = key
    · have hp' : ¬ p.1 = key' := by
        rw [hp]
        exact fun hc => hne hc.symm
      simp [lookupKey, hp, hp', ih, Ne.symm hne]
    · simp only [List.map_cons, lookupKey, hp, if_false, ih]

/-- Appending a binding for another key leaves a key's lookup
unchanged. -/
theorem lookupKey_append_single_other {α β : Type} [DecidableEq α]
    (attrs : List (α × β)) (key key' : α) (v : β) (hne : key' ≠ key) :
    lookupKey (attrs ++ [(key, v)]) key' = lookupKey attrs key' := by
  induction attrs with
  | nil => simp [lookupKey, Ne.symm hne]
  | cons p rest ih =>
    by_cases hp : p.1 = key'
    · simp [lookupKey, hp]
    · simp only [List.cons_append, lookupKey, hp, if_false]
      exact ih

/-- `updateAttr` leaves other keys' lookups unchanged. -/
theorem lookupKey_updateAttr_other (attrs : List (String × Nat))
    (key key' : String) (v : Nat) (hne : key' ≠ key) :
    lookupKey (updateAttr attrs key v) key' = lookupKey attrs key' := by
  unfold updateAttr
  split_ifs with h
  · exact lookupKey_map_update_other attrs key key' v hne
  · exact lookupKey_append_single_other attrs key key' v hne

/-- Folding updates over keys not containing `att` does not change
`att`'s lookup. -/
theorem lookupKey_foldl_update_not_mem (keys : List String)
    (g : String → Nat) (att : String) :
    att ∉ keys → ∀ attrs : List (String × Nat),
      lookupKey (keys.foldl (fun acc k => updateAttr acc k (g k)) attrs)
          att =
        lookupKey attrs att := by
  induction keys with
  | nil => intro _ attrs; rfl
  | cons k rest ih =>
    intro h attrs
    simp only [List.mem_cons, not_or] at h
    rw [List.foldl_cons, ih h.2, lookupKey_updateAttr_other _ _ _ _ h.1]

/-- Folding updates over a duplicate-free key list sets each key to its
own update value. -/
theorem lookupKey_foldl_update_mem (keys : List String)
    (g : String → Nat) (att : String) :
    keys.Nodup → att ∈ keys → ∀ attrs : List (String × Nat),
      lookupKey (keys.foldl (fun acc k => updateAttr acc k (g k)) attrs)
          att =
        some (g att) := by
  induction keys with
  | nil => intro _ hmem; cases hmem
  | cons k rest ih =>
    intro hnd hmem attrs
    rw [List.foldl_cons]
    rcases List.mem_cons.mp hmem with heq | hmemr
    · subst heq
      have hnot : att ∉ rest := (List.nodup_cons.mp hnd).1
      rw [lookupKey_foldl_update_not_mem rest g att hnot,
        lookupKey_updateAttr_self]
    · exact ih (List.nodup_cons.mp hnd).2 hmemr _

/-- Distinct excluded field names resolve to distinct storage attribute
names when the model's attribute names are duplicate-free. -/
theorem excluded_attnames_nodup (meta : ModelMeta)
    (excluded : List String)
    (hnd : (meta.fields.map (fun f => f.attname)).Nodup)
    (hexnd : excluded.Nodup) :
    (excluded.filterMap
      (fun n => (get_field meta n).map (fun f => f.attname))).Nodup := by
  refine hexnd.filterMap ?_
  intro a a' b hb hb'
  rw [Option.mem_map] at hb hb'
  obtain ⟨f1, hf1, hb1⟩ := hb
  obtain ⟨f2, hf2, hb2⟩ := hb'
  rw [Option.mem_def] at hf1 hf2
  simp only [get_field] at hf1 hf2
  have hm1 : f1 ∈ meta.fields := List.mem_of_find?_eq_some hf1
  have hm2 : f2 ∈ meta.fields := List.mem_of_find?_eq_some hf2
  have hn1 : f1.name = a := by
    have h := List.find?_some hf1
    simpa using h
  have hn2 : f2.name = a' := by
    have h := List.find?_some hf2
    simpa using h
  have heq : f1 = f2 :=
    List.inj_on_of_nodup_map hnd hm1 hm2 (hb1.trans hb2.symm)
  rw [← hn1, ← hn2, heq]

/-- Unfolding `get_instance` when the tracker excludes fields and the
live row exists. -/
theorem get_instance_live (excluded : List String) (engineIsMongo : Bool)
    (meta : ModelMeta) (live : LiveTable) (hr : HistoricalRecord)
    (liveValues : List (String × Nat)) (hne : excluded ≠ [])
    (hlive : lookupKey live (getattrRecord hr meta.pkAttname) =
      some liveValues) :
    get_instance excluded engineIsMongo meta live hr =
      Except.ok
        ((excluded.filterMap
            (fun n => (get_field meta n).map (fun f => f.attname))).foldl
          (fun acc att =>
            updateAttr acc att ((lookupKey liveValues att).getD 0))
          ((copy_fields excluded engineIsMongo meta).map
            (fun f => (f.attname, getattrRecord hr f.attname)))) := by
  have hie : excluded.isEmpty = false := by
    cases excluded with
    | nil => exact absurd rfl hne
    | cons a l => rfl
  simp [get_instance, hie, hlive]

/-- **C6.** With an excluded-fields list: (1) no excluded field's
storage attribute ever appears among a captured snapshot's keys;
(2) reconstructing an instance from a historical row fills each
excluded field with the current live value fetched by primary key; and
(3) when the live row has been deleted, the not-found failure
propagates out of the reconstruction accessor as `DoesNotExist`. -/
theorem excluded_fields_snapshot_and_reconstruction
    (excluded : List String) (engineIsMongo : Bool) (meta : ModelMeta)
    (hnd : (meta.fields.map (fun f => f.attname)).Nodup)
    (hexnd : excluded.Nodup) :
    (∀ (thread : Thread) (now : Nat) (inst : Instance) (htype : Char),
      inst.meta = meta →
      ∀ f ∈ meta.fields, f.name ∈ excluded →
        f.attname ∉
          (create_historical_record excluded thread now inst
            htype).values.map Prod.fst) ∧
    (∀ (live : LiveTable) (hr : HistoricalRecord)
        (liveValues : List (String × Nat)),
      lookupKey live (getattrRecord hr meta.pkAttname) =
        some liveValues →
      excluded ≠ [] →
      ∀ n ∈ excluded, ∀ f, get_field meta n = some f →
        ∃ attrs,
          get_instance excluded engineIsMongo meta live hr =
            Except.ok attrs ∧
          lookupKey attrs f.attname =
            some ((lookupKey liveValues f.attname).getD 0)) ∧
    (∀ (live : LiveTable) (hr : HistoricalRecord),
      excluded ≠ [] →
      lookupKey live (getattrRecord hr meta.pkAttname) = none →
      get_instance excluded engineIsMongo meta live hr =
        Except.error "DoesNotExist") := by
  refine ⟨?_, ?_, ?_⟩
  · intro thread now inst htype hmeta f hf hfex hmem
    subst hmeta
    simp only [create_historical_record, List.map_map] at hmem
    obtain ⟨f', hf'mem, hf'att⟩ := List.mem_map.mp hmem
    have hf'fields : f' ∈ inst.meta.fields :=
      (List.mem_filter.mp hf'mem).1
    have hf'name : f'.name ∉ excluded :=
      of_decide_eq_true (List.mem_filter.mp hf'mem).2
    have : f' = f := List.inj_on_of_nodup_map hnd hf'fields hf hf'att
    rw [this] at hf'name
    exact hf'name hfex
  · intro live hr liveValues hlive hne n hnex f hgf
    refine ⟨_, get_instance_live excluded engineIsMongo meta live hr
      liveValues hne hlive, ?_⟩
    exact lookupKey_foldl_update_mem _ _ f.attname
      (excluded_attnames_nodup meta excluded hnd hexnd)
      (List.mem_filterMap.mpr ⟨n, hnex, by rw [hgf]; rfl⟩) _
  · intro live hr hne hnone
    have hie : excluded.isEmpty = false := by
      cases excluded with
      | nil => exact absurd rfl hne
      | cons a l => rfl
    simp [get_instance, hie, hnone]

/-- Witness for `excluded_fields_snapshot_and_reconstruction` on the
sample model with `secret` excluded: the snapshot omits `secret`,
reconstruction reads the live value 99, and a deleted live row turns
reconstruction into a `DoesNotExist` error. -/
theorem excluded_fields_snapshot_and_reconstruction_witness :
    (plainField "secret").attname ∉
      (create_historical_record ["secret"] emptyThread 0 sampleInstance
        createdTag).values.map Prod.fst ∧
    (∃ attrs,
      get_instance ["secret"] false sampleMeta sampleLive hrSample =
        Except.ok attrs ∧
      lookupKey attrs (plainField "secret").attname =
        some ((lookupKey sampleLiveValues
          (plainField "secret").attname).getD 0)) ∧
    get_instance ["secret"] false sampleMeta [] hrSample =
      Except.error "DoesNotExist" := by
  have h := excluded_fields_snapshot_and_reconstruction ["secret"] false
    sampleMeta (by decide) (by decide)
  exact ⟨h.1 emptyThread 0 sampleInstance createdTag rfl
      (plainField "secret") (by decide) (by decide),
    h.2.1 sampleLive hrSample sampleLiveValues (by decide) (by decide)
      "secret" (by decide) (plainField "secret") (by decide),
    h.2.2 [] hrSample (by decide) (by decide)⟩

end SimpleHistory
